import Mathlib

/-!
Verification of `scripts/bump_version.py` and `scripts/util.py` of the
signal-inspector repository.

Strings are modelled as `List Char`.  Python's `str.isdigit` is modelled as
ASCII decimal-digit membership (`Char.isDigit`), which is exact on the inputs
the script manipulates (version numbers and changelog text).  File contents
are explicit values; the process environment (git subprocess streams, current
date) is passed in as data.  `error(msg)` / `sys.exit(1)` is modelled with
`Except`: an `.error` result is a run that printed `error: <msg>` and exited
with status 1 before performing any further file write.
-/

namespace SignalInspector

/-- Equality of `Except` results is decidable; used to evaluate theorems on
concrete runs. -/
instance {α β : Type} [DecidableEq α] [DecidableEq β] : DecidableEq (Except α β) := fun a b =>
  match a, b with
  | Except.error x, Except.error y =>
    if h : x = y then Decidable.isTrue (by rw [h])
    else Decidable.isFalse (fun hc => h (Except.error.inj hc))
  | Except.ok x, Except.ok y =>
    if h : x = y then Decidable.isTrue (by rw [h])
    else Decidable.isFalse (fun hc => h (Except.ok.inj hc))
  | Except.error _, Except.ok _ => Decidable.isFalse (fun hc => Except.noConfusion hc)
  | Except.ok _, Except.error _ => Decidable.isFalse (fun hc => Except.noConfusion hc)

/-- Python `s.split(sep)` for a one-character separator: splits at every
occurrence of `sep`, keeping empty pieces; `"".split(sep) == [""]`. -/
def pySplit (sep : Char) : List Char → List (List Char)
  | [] => [[]]
  | c :: s =>
    if c = sep then [] :: pySplit sep s
    else
      match pySplit sep s with
      | [] => [[c]]
      | t :: ts => (c :: t) :: ts

/-- Python `s.strip()`: remove leading and trailing whitespace. -/
def pyStrip (s : List Char) : List Char :=
  ((s.dropWhile Char.isWhitespace).reverse.dropWhile Char.isWhitespace).reverse

/-- Python `s.replace(pat, rep, 1)` for a non-empty pattern `pat`: replace the
leftmost occurrence of `pat`, if any.  (In the then-branch,
`rep ++ s.drop (pat.length - 1)` is `rep` followed by what comes after the
matched occurrence, i.e. `(c :: s).drop pat.length` for non-empty `pat`.) -/
def replaceOne (pat rep : List Char) : List Char → List Char
  | [] => []
  | c :: s =>
    if pat.isPrefixOf (c :: s) then rep ++ s.drop (pat.length - 1)
    else c :: replaceOne pat rep s

/-- Recursion worker for `replaceAll`.  The `fuel` argument only makes the
recursion structural; `replaceAll` supplies `s.length`, which the scan can
never exhaust (each step consumes at least one character of `s`). -/
def replaceAllAux (pat rep : List Char) : Nat → List Char → List Char
  | _, [] => []
  | 0, c :: s => c :: s
  | fuel + 1, c :: s =>
    if pat.isPrefixOf (c :: s) then
      rep ++ replaceAllAux pat rep fuel (s.drop (pat.length - 1))
    else c :: replaceAllAux pat rep fuel s

/-- Python `s.replace(pat, rep)` for a non-empty pattern `pat`: replace every
occurrence, scanning left to right, never re-scanning inserted text. -/
def replaceAll (pat rep s : List Char) : List Char :=
  replaceAllAux pat rep s.length s

/-- Split a string at the leftmost occurrence of a (non-empty) pattern:
`splitFirst pat s = some (a, b)` iff `s = a ++ pat ++ b` with `a` shortest,
`none` iff `pat` does not occur in `s`.  Specification device used to state
theorems about `replaceOne` / `replaceAll`. -/
def splitFirst (pat : List Char) : List Char → Option (List Char × List Char)
  | [] => none
  | c :: s =>
    if pat.isPrefixOf (c :: s) then some ([], s.drop (pat.length - 1))
    else (splitFirst pat s).map (fun p => (c :: p.1, p.2))

/-- `pat` occurs as a (contiguous) substring of `s`. -/
def occursB (pat s : List Char) : Bool :=
  (splitFirst pat s).isSome

/-- Python `int(s)` for an all-digit string: its decimal value. -/
def strToNat (s : List Char) : Nat :=
  s.foldl (fun a c => 10 * a + (c.toNat - 48)) 0

/-- Recursion worker for `natToStr`; the `fuel` argument only makes the
recursion structural (`n + 1` steps always suffice, since `n / 10 < n`). -/
def natToStrAux : Nat → Nat → List Char
  | 0, _ => []
  | fuel + 1, n =>
    if n < 10 then [Nat.digitChar n]
    else natToStrAux fuel (n / 10) ++ [Nat.digitChar (n % 10)]

/-- Python `str(n)` for a non-negative int: canonical decimal notation. -/
def natToStr (n : Nat) : List Char :=
  natToStrAux (n + 1) n

/-- `is_int` of `get_next_version`: a component is non-empty and all digits. -/
def is_int (c : List Char) : Bool :=
  !c.isEmpty && c.all Char.isDigit

/-- The message of `error(f'"{current_version}" version number invalid')`. -/
def invalidVersionMsg (current_version : List Char) : List Char :=
  '"' :: current_version ++ ("\" version number invalid".data)

/-- `get_next_version(bump_comp_idx, current_version)` of
`scripts/bump_version.py`.  Splits at dots, validates that there are exactly
three integer components, increments component `bump_comp_idx`, keeps the
components before it verbatim and pads with literal `0` components
(`[*components[:bump_comp_idx+1], 0, 0, 0][:3]`), and re-joins with dots.
The caller (`__main__`) guarantees `bump_comp_idx ∈ {0, 1, 2}`. -/
def get_next_version (bump_comp_idx : Nat) (current_version : List Char) :
    Except (List Char) (List Char) :=
  let components := pySplit '.' current_version
  let has_three_components := components.length == 3
  let all_components_are_ints := components.all is_int
  if !(has_three_components && all_components_are_ints) then
    Except.error (invalidVersionMsg current_version)
  else
    let bumped := natToStr (strToNat (components.getD bump_comp_idx []) + 1)
    let components := components.set bump_comp_idx bumped
    match (components.take (bump_comp_idx + 1) ++ [['0'], ['0'], ['0']]).take 3 with
    | [major, minor, patch] => Except.ok (major ++ '.' :: (minor ++ '.' :: patch))
    | _ => Except.error [] -- unreachable: the list above always has 3 elements

/-- `update_hocfile`'s change to the file's content:
`content.replace(f'version: {current_version}', f'version: {next_version}', 1)`. -/
def update_hocfile (next_version current_version content : List Char) : List Char :=
  replaceOne ("version: ".data ++ current_version) ("version: ".data ++ next_version) content

/-- `update_manifest`'s change to the file's content:
`content.replace(f'version = "{current_version}"', f'version = "{next_version}"', 1)`. -/
def update_manifest (next_version current_version content : List Char) : List Char :=
  replaceOne ("version = \"".data ++ current_version ++ ['"'])
    ("version = \"".data ++ next_version ++ ['"']) content

/-- The observable behaviour of the two git subprocesses spawned by
`update_changelog`: the raw `stdout`/`stderr` text and the exit codes of
`git rev-list --date-order --tags --max-count=1` and
`git diff <last_version> HEAD -- <path>`.  `run` in the script returns only
the two decoded, stripped streams; the exit codes are recorded here so that
theorems can state that the script never consults them. -/
structure GitEnv where
  revListOut : List Char
  revListErr : List Char
  revListCode : Int
  diffOut : List Char
  diffErr : List Char
  diffCode : Int

/-- `run(*cmd)`: decode and strip the two streams, ignore the exit code. -/
def run (out err : List Char) (_code : Int) : List Char × List Char :=
  (pyStrip out, pyStrip err)

/-- `HEADER_KEY` of `update_changelog`. -/
def HEADER_KEY : List Char := "## [Unreleased]".data

/-- `new_header = f"## [{next_version}] - {formatted_date}"`, where
`formatted_date` is `datetime.datetime.now(datetime.timezone.utc)` rendered as
`YYYY-MM-DD`; the date is a parameter of the model. -/
def new_header (next_version formatted_date : List Char) : List Char :=
  "## [".data ++ next_version ++ "] - ".data ++ formatted_date

/-- The block `update_changelog` substitutes for the new header:
`f"{HEADER_KEY}\n\n{new_header}\n\nImage tag: ghcr.io/{repository_owner}/signal-inspector-backend:{next_version}"`. -/
def unreleasedBlock (next_version formatted_date repository_owner : List Char) : List Char :=
  HEADER_KEY ++ "\n\n".data ++ new_header next_version formatted_date ++
    "\n\nImage tag: ghcr.io/".data ++ repository_owner ++
    "/signal-inspector-backend:".data ++ next_version

/-- The message of `error("no changes have been made to the changelog")`. -/
def noChangesMsg : List Char := "no changes have been made to the changelog".data

/-- The message of `error("no unreleased version section found")`. -/
def noUnreleasedMsg : List Char := "no unreleased version section found".data

/-- The message of `error("multiple unreleased version sections found")`. -/
def multipleUnreleasedMsg : List Char := "multiple unreleased version sections found".data

/-- The pure tail of `update_changelog`, after the git checks: the rewriting
of the changelog's content.  Replaces the first `## [Unreleased]` with the
dated header; errors if nothing changed (no section) or if another
`## [Unreleased]` remains (multiple sections); otherwise replaces every
occurrence of the dated header with the full unreleased block and returns the
new content to be written back. -/
def changelogRewrite (next_version formatted_date repository_owner content : List Char) :
    Except (List Char) (List Char) :=
  let nh := new_header next_version formatted_date
  let new_content := replaceOne HEADER_KEY nh content
  if content = new_content then
    Except.error noUnreleasedMsg
  else if new_content ≠ replaceAll HEADER_KEY nh new_content then
    Except.error multipleUnreleasedMsg
  else
    Except.ok (replaceAll nh (unreleasedBlock next_version formatted_date repository_owner)
      new_content)

/-- `update_changelog(next_version, path, repository_owner)`: the git
tag/diff validation followed by `changelogRewrite`.  `content` is what the
changelog file holds; an `.ok` result is the content written back, an
`.error` result is the message passed to `error` (the file is not written). -/
def update_changelog (next_version formatted_date repository_owner : List Char)
    (env : GitEnv) (content : List Char) : Except (List Char) (List Char) :=
  let last_version := (run env.revListOut env.revListErr env.revListCode).1
  if 0 < last_version.length then
    let stdout := (run env.diffOut env.diffErr env.diffCode).1
    let stderr := (run env.diffOut env.diffErr env.diffCode).2
    if 0 < stderr.length then Except.error (pyStrip stderr)
    else if stdout.length = 0 then Except.error noChangesMsg
    else changelogRewrite next_version formatted_date repository_owner content
  else changelogRewrite next_version formatted_date repository_owner content

/-- The five files `bump_version` touches, by content:
`VERSION`, `hocfile.yaml`, `frontend/Cargo.toml`, `backend/Cargo.toml`,
`CHANGELOG.md`. -/
structure FS where
  version_file : List Char
  hocfile : List Char
  frontend_manifest : List Char
  backend_manifest : List Char
  changelog : List Char
deriving DecidableEq

/-- Modelled from the spec: `get_version.py` is not part of the sources; per
the spec the script "reads the current semantic version" from the repository
(`VERSION` among the files it owns), so `get_current_version` returns the
content of the `VERSION` file. -/
def get_current_version (fs : FS) : List Char :=
  fs.version_file

/-- `bump_version(bump_comp_idx, repository_owner)`: reads the current
version, computes the next one, rewrites `VERSION`, `hocfile.yaml`, the two
`Cargo.toml` manifests, then runs `update_changelog`.  An `.error` result
carries the message and the file system as it stands when `error` fires
(writes already performed are kept; `sys.exit(1)` rolls nothing back). -/
def bump_version (bump_comp_idx : Nat) (repository_owner formatted_date : List Char)
    (env : GitEnv) (fs : FS) : Except (List Char × FS) (List Char × FS) :=
  let current_version := get_current_version fs
  match get_next_version bump_comp_idx current_version with
  | Except.error e => Except.error (e, fs)
  | Except.ok next_version =>
    let fs := { fs with version_file := next_version }
    let fs := { fs with hocfile := update_hocfile next_version current_version fs.hocfile }
    let fs := { fs with
      frontend_manifest := update_manifest next_version current_version fs.frontend_manifest }
    let fs := { fs with
      backend_manifest := update_manifest next_version current_version fs.backend_manifest }
    match update_changelog next_version formatted_date repository_owner env fs.changelog with
    | Except.error e => Except.error (e, fs)
    | Except.ok newlog => Except.ok (next_version, { fs with changelog := newlog })

/-- Outcome of one CLI run: exit status, lines printed to stdout, lines
printed to stderr (`error` in `util.py` prints `error: <msg>` to stderr and
exits with status 1; `print` writes to stdout and `__main__` then ends with
status 0). -/
structure CliResult where
  exitCode : Nat
  stdoutLines : List (List Char)
  stderrLines : List (List Char)
deriving DecidableEq

/-- The run `error(msg)` produces: one `error: <msg>` line on stderr, exit 1. -/
def errorResult (msg : List Char) : CliResult :=
  { exitCode := 1, stdoutLines := [], stderrLines := ["error: ".data ++ msg] }

/-- The message of `error(f'"major", "minor" or "patch" expected')`. -/
def badComponentMsg : List Char := "\"major\", \"minor\" or \"patch\" expected".data

/-- The `__main__` block of `scripts/bump_version.py`.  `argv` models
`sys.argv` (the script name included), `fs` the repository files, `env` the
git subprocess behaviour, `formatted_date` today's UTC date string. -/
def mainEntry (argv : List (List Char)) (formatted_date : List Char) (env : GitEnv)
    (fs : FS) : CliResult :=
  if argv.length < 2 then errorResult "component argument missing".data
  else if argv.length < 3 then errorResult "repository owner argument missing".data
  else
    let component := argv.getD 1 []
    let idx : Except (List Char) Nat :=
      if component = "major".data then Except.ok 0
      else if component = "minor".data then Except.ok 1
      else if component = "patch".data then Except.ok 2
      else Except.error badComponentMsg
    match idx with
    | Except.error e => errorResult e
    | Except.ok bump_comp_idx =>
      match bump_version bump_comp_idx (argv.getD 2 []) formatted_date env fs with
      | Except.error (e, _) => errorResult e
      | Except.ok (next_version, _) =>
        { exitCode := 0, stdoutLines := [next_version], stderrLines := [] }

/-- Spec-level validity of a version string: splitting at dots yields exactly
three components, each non-empty and made of decimal digits only. -/
def ValidVersion (s : List Char) : Prop :=
  (pySplit '.' s).length = 3 ∧
    ∀ comp ∈ pySplit '.' s, comp ≠ [] ∧ ∀ ch ∈ comp, ch.isDigit = true

/-! ### Lemmas about the string primitives -/

theorem isPrefixOf_iff_append (pat : List Char) :
    ∀ s : List Char, pat.isPrefixOf s = true ↔ ∃ t, s = pat ++ t := by
  induction pat with
  | nil => intro s; simp [List.isPrefixOf]
  | cons p ps ih =>
    intro s
    cases s with
    | nil => simp [List.isPrefixOf]
    | cons c s =>
      simp only [List.isPrefixOf, Bool.and_eq_true, beq_iff_eq, ih, List.cons_append,
        List.cons.injEq]
      constructor
      · rintro ⟨rfl, t, rfl⟩
        exact ⟨t, rfl, rfl⟩
      · rintro ⟨t, rfl, rfl⟩
        exact ⟨rfl, t, rfl⟩

theorem splitFirst_some_decomp (pat : List Char) (hp : pat ≠ []) :
    ∀ s a b, splitFirst pat s = some (a, b) → s = a ++ pat ++ b := by
  intro s
  induction s with
  | nil => intro a b h; simp [splitFirst] at h
  | cons c s ih =>
    intro a b h
    rw [splitFirst] at h
    split at h
    next hpre =>
      cases Option.some.inj h
      obtain ⟨t, hts⟩ := (isPrefixOf_iff_append pat (c :: s)).1 hpre
      cases pat with
      | nil => exact absurd rfl hp
      | cons q qs =>
        obtain ⟨rfl, rfl⟩ : c = q ∧ s = qs ++ t := by simpa using hts
        simp [List.drop_left]
    next hpre =>
      cases hsf : splitFirst pat s with
      | none => rw [hsf] at h; simp at h
      | some p =>
        rw [hsf, Option.map_some'] at h
        cases Option.some.inj h
        have := ih p.1 p.2 hsf
        simp [this]

theorem replaceOne_of_splitFirst_none (pat rep : List Char) :
    ∀ s, splitFirst pat s = none → replaceOne pat rep s = s := by
  intro s
  induction s with
  | nil => intro _; rfl
  | cons c s ih =>
    intro h
    rw [splitFirst] at h
    split at h
    next => simp at h
    next hpre =>
      have hs : splitFirst pat s = none := by
        cases hsf : splitFirst pat s with
        | none => rfl
        | some p => rw [hsf] at h; simp at h
      rw [replaceOne, if_neg (by simp [hpre]), ih hs]

theorem replaceOne_of_splitFirst_some (pat rep : List Char) :
    ∀ s a b, splitFirst pat s = some (a, b) → replaceOne pat rep s = a ++ rep ++ b := by
  intro s
  induction s with
  | nil => intro a b h; simp [splitFirst] at h
  | cons c s ih =>
    intro a b h
    rw [splitFirst] at h
    split at h
    next hpre =>
      cases Option.some.inj h
      rw [replaceOne, if_pos hpre]
      simp
    next hpre =>
      cases hsf : splitFirst pat s with
      | none => rw [hsf] at h; simp at h
      | some p =>
        rw [hsf, Option.map_some'] at h
        cases Option.some.inj h
        rw [replaceOne, if_neg (by simp [hpre]), ih p.1 p.2 hsf]
        simp

theorem replaceAllAux_fuel (pat rep : List Char) :
    ∀ fuel₁ fuel₂ s, s.length ≤ fuel₁ → s.length ≤ fuel₂ →
      replaceAllAux pat rep fuel₁ s = replaceAllAux pat rep fuel₂ s := by
  intro fuel₁
  induction fuel₁ with
  | zero =>
    intro fuel₂ s h₁ _
    have : s = [] := List.length_eq_zero.1 (Nat.le_zero.1 h₁)
    subst this
    cases fuel₂ <;> rfl
  | succ f ih =>
    intro fuel₂ s h₁ h₂
    cases s with
    | nil => cases fuel₂ <;> rfl
    | cons c s =>
      obtain ⟨f₂, rfl⟩ : ∃ f₂, fuel₂ = f₂ + 1 := by
        cases fuel₂ with
        | zero => simp at h₂
        | succ f₂ => exact ⟨f₂, rfl⟩
      rw [replaceAllAux, replaceAllAux]
      have hs : s.length ≤ f := by simpa using h₁
      have hs₂ : s.length ≤ f₂ := by simpa using h₂
      split
      · have hd : (s.drop (pat.length - 1)).length ≤ s.length := by
          simp [List.length_drop]
        rw [ih f₂ _ (Nat.le_trans hd hs) (Nat.le_trans hd hs₂)]
      · rw [ih f₂ s hs hs₂]

theorem replaceAllAux_eq_replaceAll (pat rep : List Char) (fuel : Nat) (s : List Char)
    (h : s.length ≤ fuel) : replaceAllAux pat rep fuel s = replaceAll pat rep s :=
  replaceAllAux_fuel pat rep fuel s.length s h (Nat.le_refl _)

theorem replaceAll_of_splitFirst_none (pat rep : List Char) :
    ∀ s, splitFirst pat s = none → replaceAll pat rep s = s := by
  have key : ∀ fuel s, splitFirst pat s = none → replaceAllAux pat rep fuel s = s := by
    intro fuel
    induction fuel with
    | zero => intro s _; cases s <;> rfl
    | succ f ih =>
      intro s h
      cases s with
      | nil => rfl
      | cons c s =>
        rw [splitFirst] at h
        split at h
        next => simp at h
        next hpre =>
          have hs : splitFirst pat s = none := by
            cases hsf : splitFirst pat s with
            | none => rfl
            | some p => rw [hsf] at h; simp at h
          rw [replaceAllAux, if_neg (by simp [hpre]), ih s hs]
  intro s h
  exact key s.length s h

theorem replaceAll_of_splitFirst_some (pat rep : List Char) :
    ∀ s a b, splitFirst pat s = some (a, b) →
      replaceAll pat rep s = a ++ rep ++ replaceAll pat rep b := by
  intro s
  induction s with
  | nil => intro a b h; simp [splitFirst] at h
  | cons c s ih =>
    intro a b h
    rw [splitFirst] at h
    split at h
    next hpre =>
      cases Option.some.inj h
      show replaceAllAux pat rep (c :: s).length (c :: s) = _
      rw [List.length_cons, replaceAllAux, if_pos hpre,
        replaceAllAux_eq_replaceAll pat rep s.length _ (by simp [List.length_drop])]
      simp
    next hpre =>
      cases hsf : splitFirst pat s with
      | none => rw [hsf] at h; simp at h
      | some p =>
        rw [hsf, Option.map_some'] at h
        cases Option.some.inj h
        show replaceAllAux pat rep (c :: s).length (c :: s) = _
        rw [List.length_cons, replaceAllAux, if_neg (by simp [hpre])]
        have haux : replaceAllAux pat rep s.length s = replaceAll pat rep s := rfl
        rw [haux, ih p.1 p.2 hsf]
        simp

theorem occursB_append_left (pat b : List Char) (h : occursB pat b = true) :
    ∀ x, occursB pat (x ++ b) = true := by
  intro x
  induction x with
  | nil => simpa using h
  | cons c x ih =>
    show occursB pat (c :: (x ++ b)) = true
    rw [occursB, splitFirst]
    split
    · rfl
    · simp only [occursB] at ih
      cases hsf : splitFirst pat (x ++ b) with
      | none => rw [hsf] at ih; simp at ih
      | some p => simp [hsf]

/-! ### Lemmas about decimal notation and version splitting -/

theorem digitChar_isDigit {n : Nat} (h : n < 10) : (Nat.digitChar n).isDigit = true := by
  interval_cases n <;> decide

theorem natToStrAux_all_digit : ∀ fuel n, (natToStrAux fuel n).all Char.isDigit = true := by
  intro fuel
  induction fuel with
  | zero => intro n; rfl
  | succ f ih =>
    intro n
    rw [natToStrAux]
    split
    next h => simp [digitChar_isDigit h]
    next h =>
      rw [List.all_append, ih (n / 10)]
      simp [digitChar_isDigit (Nat.mod_lt n (by norm_num))]

theorem natToStr_all_digit (n : Nat) : (natToStr n).all Char.isDigit = true :=
  natToStrAux_all_digit (n + 1) n

theorem natToStr_ne_nil (n : Nat) : natToStr n ≠ [] := by
  rw [natToStr, natToStrAux]
  split
  · simp
  · simp

theorem is_int_natToStr (n : Nat) : is_int (natToStr n) = true := by
  rw [is_int, natToStr_all_digit]
  cases h : natToStr n with
  | nil => exact absurd h (natToStr_ne_nil n)
  | cons c t => rfl

theorem not_mem_of_all_digit {l : List Char} (h : l.all Char.isDigit = true) {c : Char}
    (hc : c.isDigit = false) : c ∉ l := by
  intro hmem
  have := List.all_eq_true.1 h c hmem
  rw [hc] at this
  exact Bool.false_ne_true this

theorem dot_not_mem_of_is_int {l : List Char} (h : is_int l = true) : '.' ∉ l := by
  rw [is_int, Bool.and_eq_true] at h
  exact not_mem_of_all_digit h.2 (by decide)

theorem pySplit_no_sep {sep : Char} : ∀ {x : List Char}, sep ∉ x → pySplit sep x = [x] := by
  intro x
  induction x with
  | nil => intro _; rfl
  | cons c x ih =>
    intro h
    have hc : ¬c = sep := fun hcs => h (hcs ▸ List.mem_cons_self c x)
    rw [pySplit, if_neg hc, ih (fun hm => h (List.mem_cons_of_mem c hm))]

theorem pySplit_append_sep {sep : Char} :
    ∀ {x : List Char}, sep ∉ x → ∀ r, pySplit sep (x ++ sep :: r) = x :: pySplit sep r := by
  intro x
  induction x with
  | nil => intro _ r; simp [pySplit]
  | cons c x ih =>
    intro h r
    have hc : ¬c = sep := fun hcs => h (hcs ▸ List.mem_cons_self c x)
    show pySplit sep (c :: (x ++ sep :: r)) = (c :: x) :: pySplit sep r
    rw [pySplit, if_neg hc, ih (fun hm => h (List.mem_cons_of_mem c hm)) r]

/-- Splitting a well-formed three-component version string. -/
theorem pySplit_three {a b c : List Char} (ha : '.' ∉ a) (hb : '.' ∉ b) (hc : '.' ∉ c) :
    pySplit '.' (a ++ '.' :: (b ++ '.' :: c)) = [a, b, c] := by
  rw [pySplit_append_sep ha, pySplit_append_sep hb, pySplit_no_sep hc]

/-- The boolean validity test of `get_next_version` agrees with the
spec-level `ValidVersion` predicate. -/
theorem ValidVersion_iff (s : List Char) :
    ValidVersion s ↔
      (((pySplit '.' s).length == 3) && (pySplit '.' s).all is_int) = true := by
  rw [ValidVersion, Bool.and_eq_true, beq_iff_eq, List.all_eq_true]
  constructor
  · rintro ⟨h3, hcomp⟩
    refine ⟨h3, fun comp hmem => ?_⟩
    obtain ⟨hne, hdig⟩ := hcomp comp hmem
    rw [is_int, Bool.and_eq_true]
    refine ⟨?_, List.all_eq_true.2 hdig⟩
    cases comp with
    | nil => exact absurd rfl hne
    | cons c t => rfl
  · rintro ⟨h3, hcomp⟩
    refine ⟨h3, fun comp hmem => ?_⟩
    have := hcomp comp hmem
    rw [is_int, Bool.and_eq_true] at this
    refine ⟨?_, List.all_eq_true.1 this.2⟩
    cases comp with
    | nil => exact absurd this.1 (by decide)
    | cons c t => simp

/-- Full evaluation of `get_next_version` on a valid version: keeps the
components before the bumped one verbatim, re-renders the bumped one as
`str(int(component) + 1)`, and pads the positions after it with `0`. -/
theorem get_next_version_eval (idx : Nat) (hidx : idx < 3) (s a b c : List Char)
    (hs : pySplit '.' s = [a, b, c])
    (ha : is_int a = true) (hb : is_int b = true) (hc : is_int c = true) :
    get_next_version idx s = Except.ok (
      if idx = 0 then natToStr (strToNat a + 1) ++ ".0.0".data
      else if idx = 1 then a ++ '.' :: (natToStr (strToNat b + 1) ++ ".0".data)
      else a ++ '.' :: (b ++ '.' :: natToStr (strToNat c + 1))) := by
  rw [get_next_version]
  simp only [hs]
  interval_cases idx <;>
    simp [List.all_cons, List.all_nil, ha, hb, hc, List.getD_cons_zero, List.getD_cons_succ]

/-! ### Lemmas about the changelog rewrite -/

theorem HEADER_KEY_ne_nil : HEADER_KEY ≠ [] := by decide

/-- A version string produced by `get_next_version` starts with a digit, so
the dated header can never equal the `## [Unreleased]` header. -/
theorem new_header_ne_HEADER_KEY {v : List Char} (d : List Char)
    (hv : ∃ c t, v = c :: t ∧ c.isDigit = true) : new_header v d ≠ HEADER_KEY := by
  obtain ⟨c, t, rfl, hc⟩ := hv
  intro h
  have h5 : ('#' :: '#' :: ' ' :: '[' :: c :: (t ++ "] - ".data ++ d)) =
      ('#' :: '#' :: ' ' :: '[' :: 'U' :: "nreleased]".data) := h
  simp only [List.cons.injEq] at h5
  rw [h5.2.2.2.2.1] at hc
  exact absurd hc (by decide)

/-- `## [Unreleased]` is not a proper prefix of a dated header whose version
starts with a digit. -/
theorem HEADER_KEY_not_before_new_header {v : List Char} (d : List Char)
    (hv : ∃ c t, v = c :: t ∧ c.isDigit = true) (x : List Char) :
    new_header v d ≠ HEADER_KEY ++ x := by
  obtain ⟨c, t, rfl, hc⟩ := hv
  intro h
  have h5 : ('#' :: '#' :: ' ' :: '[' :: c :: (t ++ "] - ".data ++ d)) =
      ('#' :: '#' :: ' ' :: '[' :: 'U' :: ("nreleased]".data ++ x)) := h
  simp only [List.cons.injEq] at h5
  rw [h5.2.2.2.2.1] at hc
  exact absurd hc (by decide)

/-- A dated header whose version starts with a digit is not a prefix of
`## [Unreleased]`. -/
theorem new_header_not_before_HEADER_KEY {v : List Char} (d : List Char)
    (hv : ∃ c t, v = c :: t ∧ c.isDigit = true) (x : List Char) :
    HEADER_KEY ≠ new_header v d ++ x := by
  obtain ⟨c, t, rfl, hc⟩ := hv
  intro h
  have h5 : ('#' :: '#' :: ' ' :: '[' :: 'U' :: "nreleased]".data) =
      ('#' :: '#' :: ' ' :: '[' :: c :: (t ++ "] - ".data ++ d ++ x)) := h
  simp only [List.cons.injEq] at h5
  rw [← h5.2.2.2.2.1] at hc
  exact absurd hc (by decide)

/-- `changelogRewrite` errors with `noUnreleasedMsg` when the header is
absent. -/
theorem changelogRewrite_of_no_section (v d o content : List Char)
    (h : splitFirst HEADER_KEY content = none) :
    changelogRewrite v d o content = Except.error noUnreleasedMsg := by
  simp [changelogRewrite, replaceOne_of_splitFirst_none _ _ _ h]

/-- `changelogRewrite` errors with `multipleUnreleasedMsg` when the header
occurs at least twice (once at the first occurrence, once more in the rest). -/
theorem changelogRewrite_of_multiple (v d o content a b : List Char)
    (hv : ∃ c t, v = c :: t ∧ c.isDigit = true)
    (hsplit : splitFirst HEADER_KEY content = some (a, b))
    (hocc : occursB HEADER_KEY b = true) :
    changelogRewrite v d o content = Except.error multipleUnreleasedMsg := by
  have hdecomp := splitFirst_some_decomp HEADER_KEY HEADER_KEY_ne_nil content a b hsplit
  have hrepl := replaceOne_of_splitFirst_some HEADER_KEY (new_header v d) content a b hsplit
  have hcheck1 : content ≠ replaceOne HEADER_KEY (new_header v d) content := by
    rw [hrepl, hdecomp]
    intro heq
    have : HEADER_KEY ++ b = new_header v d ++ b := by
      rw [List.append_assoc, List.append_assoc] at heq
      exact List.append_cancel_left heq
    exact new_header_ne_HEADER_KEY d hv (List.append_cancel_right this.symm)
  have hocc2 : occursB HEADER_KEY (replaceOne HEADER_KEY (new_header v d) content) = true := by
    rw [hrepl]
    exact occursB_append_left HEADER_KEY b hocc (a ++ new_header v d)
  obtain ⟨p, hp⟩ := Option.isSome_iff_exists.1 hocc2
  have hdecomp2 := splitFirst_some_decomp HEADER_KEY HEADER_KEY_ne_nil _ p.1 p.2 hp
  have hcheck2 : replaceOne HEADER_KEY (new_header v d) content ≠
      replaceAll HEADER_KEY (new_header v d) (replaceOne HEADER_KEY (new_header v d) content) := by
    rw [replaceAll_of_splitFirst_some HEADER_KEY (new_header v d) _ p.1 p.2 hp]
    intro heq
    rw [hdecomp2, List.append_assoc, List.append_assoc] at heq
    have := List.append_cancel_left heq
    rcases List.append_eq_append_iff.1 this with ⟨x, hx, _⟩ | ⟨x, hx, _⟩
    · exact HEADER_KEY_not_before_new_header d hv x hx
    · exact new_header_not_before_HEADER_KEY d hv x hx
  rw [changelogRewrite]
  simp only [if_neg hcheck1]
  rw [if_pos hcheck2]

/-- Successful evaluation of `changelogRewrite`: on a content holding the
`## [Unreleased]` header exactly once, where the dated header occurs (after
the first replacement) only at the replaced position, the header is expanded
into the full unreleased block and nothing else changes. -/
theorem changelogRewrite_eval_ok (v d o content a b : List Char)
    (hsplit : splitFirst HEADER_KEY content = some (a, b))
    (hnone : splitFirst HEADER_KEY (a ++ new_header v d ++ b) = none)
    (hN : splitFirst (new_header v d) (a ++ new_header v d ++ b) = some (a, b))
    (hNb : splitFirst (new_header v d) b = none) :
    changelogRewrite v d o content = Except.ok (a ++ unreleasedBlock v d o ++ b) := by
  have hrepl := replaceOne_of_splitFirst_some HEADER_KEY (new_header v d) content a b hsplit
  have hcheck1 : content ≠ replaceOne HEADER_KEY (new_header v d) content := by
    rw [hrepl]
    intro heq
    rw [← heq] at hnone
    rw [hsplit] at hnone
    exact Option.noConfusion hnone
  have hcheck2 : replaceAll HEADER_KEY (new_header v d)
      (replaceOne HEADER_KEY (new_header v d) content) =
      replaceOne HEADER_KEY (new_header v d) content := by
    rw [hrepl]
    exact replaceAll_of_splitFirst_none _ _ _ hnone
  rw [changelogRewrite]
  simp only [if_neg hcheck1]
  rw [if_neg (by rw [hcheck2]; simp)]
  rw [hrepl, replaceAll_of_splitFirst_some _ _ _ a b hN,
    replaceAll_of_splitFirst_none _ _ _ hNb]

/-- Any error `changelogRewrite` produces is one of the two section
messages. -/
theorem changelogRewrite_error_cases (v d o content e : List Char)
    (h : changelogRewrite v d o content = Except.error e) :
    e = noUnreleasedMsg ∨ e = multipleUnreleasedMsg := by
  rw [changelogRewrite] at h
  split at h
  · exact Or.inl (Except.error.inj h).symm
  · split at h
    · exact Or.inr (Except.error.inj h).symm
    · exact Except.noConfusion h

/-! ### Lemmas about the git validation and the orchestration -/

theorem update_changelog_git_error (v d o : List Char) (env : GitEnv) (content : List Char)
    (htag : 0 < (pyStrip env.revListOut).length) (herr : 0 < (pyStrip env.diffErr).length) :
    update_changelog v d o env content = Except.error (pyStrip (pyStrip env.diffErr)) := by
  simp only [update_changelog, run]
  rw [if_pos htag, if_pos herr]

theorem update_changelog_no_changes (v d o : List Char) (env : GitEnv) (content : List Char)
    (htag : 0 < (pyStrip env.revListOut).length) (herr : pyStrip env.diffErr = [])
    (hout : pyStrip env.diffOut = []) :
    update_changelog v d o env content = Except.error noChangesMsg := by
  simp only [update_changelog, run]
  rw [if_pos htag, if_neg (by rw [herr]; simp), if_pos (by rw [hout]; rfl)]

theorem update_changelog_no_tag (v d o : List Char) (env : GitEnv) (content : List Char)
    (hno : pyStrip env.revListOut = []) :
    update_changelog v d o env content = changelogRewrite v d o content := by
  simp only [update_changelog, run]
  rw [if_neg (by rw [hno]; simp)]

theorem update_changelog_diff_ok (v d o : List Char) (env : GitEnv) (content : List Char)
    (htag : 0 < (pyStrip env.revListOut).length) (herr : pyStrip env.diffErr = [])
    (hout : 0 < (pyStrip env.diffOut).length) :
    update_changelog v d o env content = changelogRewrite v d o content := by
  simp only [update_changelog, run]
  rw [if_pos htag, if_neg (by rw [herr]; simp), if_neg (by omega)]

/-- The file system after the first four rewrites of `bump_version`, before
`update_changelog` runs. -/
def fsAfterFour (next current : List Char) (fs : FS) : FS :=
  { version_file := next,
    hocfile := update_hocfile next current fs.hocfile,
    frontend_manifest := update_manifest next current fs.frontend_manifest,
    backend_manifest := update_manifest next current fs.backend_manifest,
    changelog := fs.changelog }

theorem bump_version_of_invalid (idx : Nat) (o d : List Char) (env : GitEnv) (fs : FS)
    (m : List Char) (hbad : get_next_version idx (get_current_version fs) = Except.error m) :
    bump_version idx o d env fs = Except.error (m, fs) := by
  simp only [bump_version]
  rw [hbad]

theorem bump_version_of_changelog_error (idx : Nat) (o d : List Char) (env : GitEnv)
    (fs : FS) (next e : List Char)
    (hnext : get_next_version idx (get_current_version fs) = Except.ok next)
    (herr : update_changelog next d o env fs.changelog = Except.error e) :
    bump_version idx o d env fs =
      Except.error (e, fsAfterFour next (get_current_version fs) fs) := by
  simp only [bump_version]
  rw [hnext]
  simp only [fsAfterFour]
  rw [herr]

theorem bump_version_of_changelog_ok (idx : Nat) (o d : List Char) (env : GitEnv)
    (fs : FS) (next newlog : List Char)
    (hnext : get_next_version idx (get_current_version fs) = Except.ok next)
    (hok : update_changelog next d o env fs.changelog = Except.ok newlog) :
    bump_version idx o d env fs =
      Except.ok (next, { fsAfterFour next (get_current_version fs) fs with
        changelog := newlog }) := by
  simp only [bump_version]
  rw [hnext]
  simp only [fsAfterFour]
  rw [hok]

/-- Whatever error aborts `bump_version`, the changelog file is never
rewritten: its content in the error state is the original one. -/
theorem bump_version_error_preserves_changelog (idx : Nat) (o d : List Char) (env : GitEnv)
    (fs : FS) (e : List Char) (fsE : FS)
    (h : bump_version idx o d env fs = Except.error (e, fsE)) :
    fsE.changelog = fs.changelog := by
  cases hn : get_next_version idx (get_current_version fs) with
  | error m =>
    rw [bump_version_of_invalid idx o d env fs m hn] at h
    cases Except.error.inj h
    rfl
  | ok next =>
    cases hc : update_changelog next d o env fs.changelog with
    | error e2 =>
      rw [bump_version_of_changelog_error idx o d env fs next e2 hn hc] at h
      cases Except.error.inj h
      rfl
    | ok newlog =>
      rw [bump_version_of_changelog_ok idx o d env fs next newlog hn hc] at h
      exact Except.noConfusion h

/-- Evaluating `__main__` once the two argument checks pass and the bump
keyword has been recognised. -/
theorem mainEntry_eq_of_component (prog comp owner : List Char) (rest : List (List Char))
    (d : List Char) (env : GitEnv) (fs : FS) (idx : Nat)
    (hidx : (comp = "major".data ∧ idx = 0) ∨ (comp = "minor".data ∧ idx = 1) ∨
      (comp = "patch".data ∧ idx = 2)) :
    mainEntry (prog :: comp :: owner :: rest) d env fs =
      match bump_version idx owner d env fs with
      | Except.error (e, _) => errorResult e
      | Except.ok (next_version, _) =>
        { exitCode := 0, stdoutLines := [next_version], stderrLines := [] } := by
  rw [mainEntry]
  rw [if_neg (by simp), if_neg (by simp)]
  rcases hidx with ⟨rfl, rfl⟩ | ⟨rfl, rfl⟩ | ⟨rfl, rfl⟩ <;>
    simp only [List.getD_cons_succ, List.getD_cons_zero] <;> simp

/-! ### The claims -/

/-- C1: for every valid version string `a.b.c` (three non-empty all-digit
components) and bump index in `{0, 1, 2}`, `get_next_version` increments the
integer at the targeted index, resets every later component to `0`, and
leaves the components before it unchanged. -/
theorem C1_bump_targets_component (idx : Nat) (a b c : List Char) (hidx : idx < 3)
    (ha : is_int a = true) (hb : is_int b = true) (hc : is_int c = true) :
    get_next_version idx (a ++ '.' :: (b ++ '.' :: c)) =
      Except.ok (
        if idx = 0 then natToStr (strToNat a + 1) ++ ".0.0".data
        else if idx = 1 then a ++ '.' :: (natToStr (strToNat b + 1) ++ ".0".data)
        else a ++ '.' :: (b ++ '.' :: natToStr (strToNat c + 1))) :=
  get_next_version_eval idx hidx _ a b c
    (pySplit_three (dot_not_mem_of_is_int ha) (dot_not_mem_of_is_int hb)
      (dot_not_mem_of_is_int hc)) ha hb hc

/-- Witness for C1: the three worked examples of the spec. -/
theorem C1_bump_targets_component_witness :
    get_next_version 0 "1.2.3".data = Except.ok "2.0.0".data ∧
    get_next_version 1 "1.2.3".data = Except.ok "1.3.0".data ∧
    get_next_version 2 "1.2.3".data = Except.ok "1.2.4".data :=
  ⟨(C1_bump_targets_component 0 "1".data "2".data "3".data (by decide) (by decide)
      (by decide) (by decide)).trans (by decide),
    (C1_bump_targets_component 1 "1".data "2".data "3".data (by decide) (by decide)
      (by decide) (by decide)).trans (by decide),
    (C1_bump_targets_component 2 "1".data "2".data "3".data (by decide) (by decide)
      (by decide) (by decide)).trans (by decide)⟩

/-- C2: `get_next_version` fails with the invalid-version error precisely on
the inputs that are not three non-empty all-digit dot-separated components. -/
theorem C2_invalid_version_error (idx : Nat) (hidx : idx < 3) (s : List Char) :
    get_next_version idx s = Except.error (invalidVersionMsg s) ↔ ¬ ValidVersion s := by
  constructor
  · intro h hval
    rw [ValidVersion_iff] at hval
    rw [Bool.and_eq_true] at hval
    have hlen : (pySplit '.' s).length = 3 := beq_iff_eq.1 hval.1
    obtain ⟨a, b, c, habc⟩ := List.length_eq_three.1 hlen
    have hall := hval.2
    rw [habc] at hall
    simp only [List.all_cons, List.all_nil, Bool.and_eq_true, Bool.and_true] at hall
    rw [get_next_version_eval idx hidx s a b c habc hall.1 hall.2.1 hall.2.2] at h
    exact Except.noConfusion h
  · intro hval
    have hb : (((pySplit '.' s).length == 3) && (pySplit '.' s).all is_int) = false :=
      Bool.eq_false_iff.2 (fun hbad => hval ((ValidVersion_iff s).2 hbad))
    simp [get_next_version, hb]

/-- Witness for C2: `"1.x.3"` and `"1.2"` are rejected with the
invalid-version message, `"1.2.3"` is not. -/
theorem C2_invalid_version_error_witness :
    get_next_version 1 "1.x.3".data = Except.error (invalidVersionMsg "1.x.3".data) ∧
    get_next_version 1 "1.2".data = Except.error (invalidVersionMsg "1.2".data) ∧
    get_next_version 1 "1.2.3".data ≠ Except.error (invalidVersionMsg "1.2.3".data) := by
  refine ⟨(C2_invalid_version_error 1 (by decide) _).2 ?_,
    (C2_invalid_version_error 1 (by decide) _).2 ?_, fun h => ?_⟩
  · intro hv
    rw [ValidVersion_iff] at hv
    revert hv
    decide
  · intro hv
    rw [ValidVersion_iff] at hv
    revert hv
    decide
  · exact (C2_invalid_version_error 1 (by decide) _).1 h (by rw [ValidVersion_iff]; decide)

/-- C9: on a valid version, `get_next_version` returns a valid version whose
components before the bump index are the original component strings verbatim,
while the bumped and later components are canonical decimal integers. -/
theorem C9_next_version_well_formed (idx : Nat) (s a b c : List Char) (hidx : idx < 3)
    (hs : pySplit '.' s = [a, b, c])
    (ha : is_int a = true) (hb : is_int b = true) (hc : is_int c = true) :
    ∃ v, get_next_version idx s = Except.ok v ∧
      pySplit '.' v = (if idx = 0 then [natToStr (strToNat a + 1), ['0'], ['0']]
        else if idx = 1 then [a, natToStr (strToNat b + 1), ['0']]
        else [a, b, natToStr (strToNat c + 1)]) ∧
      (pySplit '.' v).length = 3 ∧ (pySplit '.' v).all is_int = true := by
  have heval := get_next_version_eval idx hidx s a b c hs ha hb hc
  have hdot : ∀ n : Nat, '.' ∉ natToStr n := fun n =>
    dot_not_mem_of_is_int (is_int_natToStr n)
  have hdot0 : ('.' : Char) ∉ ['0'] := by decide
  have hzero : is_int ['0'] = true := by decide
  interval_cases idx
  · refine ⟨_, heval.trans (congrArg Except.ok (if_pos rfl)), ?_⟩
    have hsplitv := @pySplit_three (natToStr (strToNat a + 1)) ['0'] ['0']
      (hdot _) hdot0 hdot0
    have hsv : pySplit '.' (natToStr (strToNat a + 1) ++ ".0.0".data) =
        [natToStr (strToNat a + 1), ['0'], ['0']] := hsplitv
    simp [hsv, is_int_natToStr, hzero]
  · refine ⟨_, heval.trans ((congrArg Except.ok ((if_neg (by decide)).trans (if_pos rfl)))), ?_⟩
    have hsplitv := @pySplit_three a (natToStr (strToNat b + 1)) ['0']
      (dot_not_mem_of_is_int ha) (hdot _) hdot0
    have hsv : pySplit '.' (a ++ '.' :: (natToStr (strToNat b + 1) ++ ".0".data)) =
        [a, natToStr (strToNat b + 1), ['0']] := hsplitv
    simp [hsv, is_int_natToStr, hzero, ha]
  · refine ⟨_, heval.trans ((congrArg Except.ok
      ((if_neg (by decide)).trans (if_neg (by decide))))), ?_⟩
    have hsplitv := @pySplit_three a b (natToStr (strToNat c + 1))
      (dot_not_mem_of_is_int ha) (dot_not_mem_of_is_int hb) (hdot _)
    simp [hsplitv, is_int_natToStr, ha, hb]

/-- Witness for C9: minor-bumping `"01.02.9"` keeps the zero-padded major
component `"01"` verbatim and renders the bumped component canonically. -/
theorem C9_next_version_well_formed_witness :
    ∃ v, get_next_version 1 "01.02.9".data = Except.ok v ∧
      pySplit '.' v = ["01".data, "3".data, "0".data] ∧
      (pySplit '.' v).length = 3 ∧ (pySplit '.' v).all is_int = true := by
  obtain ⟨v, h1, h2, h3, h4⟩ := C9_next_version_well_formed 1 "01.02.9".data
    "01".data "02".data "9".data (by decide) (by decide) (by decide) (by decide) (by decide)
  exact ⟨v, h1, h2.trans (by decide), h3, h4⟩

/-- C3 counterexample: when the content already contains the dated header
`## [2.0.0] - 2026-01-01`, the final (count-unbounded) `replace` of
`update_changelog` expands that pre-existing occurrence as well, so the run
succeeds but the rest of the content does not stay unchanged. -/
theorem C3_counterexample :
    (changelogRewrite "2.0.0".data "2026-01-01".data "me".data
        "## [Unreleased]\nA\n## [2.0.0] - 2026-01-01\n".data).isOk = true ∧
    changelogRewrite "2.0.0".data "2026-01-01".data "me".data
        "## [Unreleased]\nA\n## [2.0.0] - 2026-01-01\n".data ≠
      Except.ok ("## [Unreleased]\n\n## [2.0.0] - 2026-01-01\n\nImage tag: ghcr.io/me/signal-inspector-backend:2.0.0\nA\n## [2.0.0] - 2026-01-01\n".data) := by
  exact ⟨by decide, by decide⟩

/-- C3 (amended): for every content holding `## [Unreleased]` exactly once
and in which the dated header `## [<v>] - <date>` occurs (after the first
replacement) only at the replaced position, a successful run turns the header
exactly once into `## [Unreleased]`, blank line, `## [<v>] - <date>`, blank
line, the image-tag line, and changes nothing else. -/
theorem C3_unreleased_header_expansion (v d o content a b : List Char)
    (hsplit : splitFirst HEADER_KEY content = some (a, b))
    (hone : splitFirst HEADER_KEY (a ++ new_header v d ++ b) = none)
    (hN : splitFirst (new_header v d) (a ++ new_header v d ++ b) = some (a, b))
    (hNb : splitFirst (new_header v d) b = none) :
    content = a ++ HEADER_KEY ++ b ∧
    changelogRewrite v d o content = Except.ok (a ++ unreleasedBlock v d o ++ b) :=
  ⟨splitFirst_some_decomp HEADER_KEY HEADER_KEY_ne_nil content a b hsplit,
    changelogRewrite_eval_ok v d o content a b hsplit hone hN hNb⟩

/-- Witness for C3 (amended) on a concrete changelog. -/
theorem C3_unreleased_header_expansion_witness :
    changelogRewrite "1.3.0".data "2026-10-12".data "own".data
        "Intro\n## [Unreleased]\n- change\nTail".data =
      Except.ok "Intro\n## [Unreleased]\n\n## [1.3.0] - 2026-10-12\n\nImage tag: ghcr.io/own/signal-inspector-backend:1.3.0\n- change\nTail".data :=
  ((C3_unreleased_header_expansion "1.3.0".data "2026-10-12".data "own".data
      "Intro\n## [Unreleased]\n- change\nTail".data "Intro\n".data "\n- change\nTail".data
      (by decide) (by decide) (by decide) (by decide)).2).trans (by decide)

/-- C4: a content with zero `## [Unreleased]` headers makes the rewrite fail
with the no-unreleased-section error, one with two or more makes it fail with
the multiple-sections error, and whenever `bump_version` aborts with any
error the changelog file still holds its original content. -/
theorem C4_unreleased_section_errors (v d o content : List Char)
    (hv : ∃ c t, v = c :: t ∧ c.isDigit = true) :
    (splitFirst HEADER_KEY content = none →
      changelogRewrite v d o content = Except.error noUnreleasedMsg) ∧
    (∀ a b, splitFirst HEADER_KEY content = some (a, b) → occursB HEADER_KEY b = true →
      changelogRewrite v d o content = Except.error multipleUnreleasedMsg) ∧
    (∀ idx o2 d2 env fs e fsE, bump_version idx o2 d2 env fs = Except.error (e, fsE) →
      fsE.changelog = fs.changelog) :=
  ⟨fun h => changelogRewrite_of_no_section v d o content h,
    fun a b h1 h2 => changelogRewrite_of_multiple v d o content a b hv h1 h2,
    fun idx o2 d2 env fs e fsE h =>
      bump_version_error_preserves_changelog idx o2 d2 env fs e fsE h⟩

/-- Witness for C4: zero headers and two headers on concrete contents. -/
theorem C4_unreleased_section_errors_witness :
    changelogRewrite "1.0.0".data "2026-10-12".data "own".data "no header here".data =
      Except.error noUnreleasedMsg ∧
    changelogRewrite "1.0.0".data "2026-10-12".data "own".data
        "## [Unreleased]\nx\n## [Unreleased]\n".data =
      Except.error multipleUnreleasedMsg :=
  ⟨(C4_unreleased_section_errors "1.0.0".data "2026-10-12".data "own".data
      "no header here".data ⟨'1', ".0.0".data, rfl, by decide⟩).1 (by decide),
    (C4_unreleased_section_errors "1.0.0".data "2026-10-12".data "own".data
      "## [Unreleased]\nx\n## [Unreleased]\n".data ⟨'1', ".0.0".data, rfl, by decide⟩).2.1
      [] "\nx\n## [Unreleased]\n".data (by decide) (by decide)⟩

/-- C5 counterexample: a prior tag exists and the diff output is empty, yet
because stderr is checked first the raised error is the git error (`"boom"`),
not the changelog-not-updated error. -/
theorem C5_counterexample :
    update_changelog "1.0.0".data "2026-10-12".data "own".data
        { revListOut := "abc".data, revListErr := [], revListCode := 0,
          diffOut := [], diffErr := "boom".data, diffCode := 0 } "x".data =
      Except.error "boom".data ∧
    "boom".data ≠ noChangesMsg ∧
    0 < (pyStrip "abc".data).length ∧ (pyStrip ([] : List Char)).length = 0 := by
  exact ⟨by decide, by decide, by decide, by decide⟩

/-- C5 (amended): with a prior tag, a non-empty diff stderr raises the git
error (with the stripped stderr text); the changelog-not-updated error is
raised exactly when additionally the stderr is empty and the diff output is
empty; without a prior tag no diff check happens and only the two
section errors remain possible. -/
theorem C5_git_validation (v d o content : List Char) (env : GitEnv) :
    (0 < (pyStrip env.revListOut).length → 0 < (pyStrip env.diffErr).length →
      update_changelog v d o env content = Except.error (pyStrip (pyStrip env.diffErr))) ∧
    (0 < (pyStrip env.revListOut).length → pyStrip env.diffErr = [] →
      pyStrip env.diffOut = [] →
      update_changelog v d o env content = Except.error noChangesMsg) ∧
    (0 < (pyStrip env.revListOut).length → pyStrip env.diffErr = [] →
      0 < (pyStrip env.diffOut).length →
      update_changelog v d o env content = changelogRewrite v d o content) ∧
    (pyStrip env.revListOut = [] →
      update_changelog v d o env content = changelogRewrite v d o content ∧
      ∀ e, update_changelog v d o env content = Except.error e →
        e = noUnreleasedMsg ∨ e = multipleUnreleasedMsg) := by
  refine ⟨update_changelog_git_error v d o env content,
    update_changelog_no_changes v d o env content,
    update_changelog_diff_ok v d o env content,
    fun h => ⟨update_changelog_no_tag v d o env content h, fun e he => ?_⟩⟩
  rw [update_changelog_no_tag v d o env content h] at he
  exact changelogRewrite_error_cases v d o content e he

/-- Witness for C5 (amended) on concrete git environments. -/
theorem C5_git_validation_witness :
    update_changelog "1.0.0".data "2026-10-12".data "o".data
        { revListOut := "abc".data, revListErr := [], revListCode := 0,
          diffOut := "diff".data, diffErr := " fatal ".data, diffCode := 128 } "x".data =
      Except.error "fatal".data ∧
    update_changelog "1.0.0".data "2026-10-12".data "o".data
        { revListOut := "abc".data, revListErr := [], revListCode := 0,
          diffOut := [], diffErr := [], diffCode := 0 } "x".data =
      Except.error noChangesMsg ∧
    update_changelog "1.0.0".data "2026-10-12".data "o".data
        { revListOut := "  ".data, revListErr := "warning".data, revListCode := 1,
          diffOut := [], diffErr := "ignored".data, diffCode := 1 } "x".data =
      changelogRewrite "1.0.0".data "2026-10-12".data "o".data "x".data :=
  ⟨((C5_git_validation "1.0.0".data "2026-10-12".data "o".data "x".data _).1
      (by decide) (by decide)).trans (by decide),
    (C5_git_validation "1.0.0".data "2026-10-12".data "o".data "x".data _).2.1
      (by decide) (by decide) (by decide),
    ((C5_git_validation "1.0.0".data "2026-10-12".data "o".data "x".data _).2.2.2
      (by decide)).1⟩

/-- C10: the script reads only the stripped stdout/stderr text of the two
git subprocesses — the exit codes (and the rev-list stderr) never influence
the result — and an empty rev-list stdout skips the diff check entirely,
whatever the other streams or codes say. -/
theorem C10_git_failure_detection (v d o content : List Char) (env : GitEnv) :
    (∀ c₁ c₂ r, update_changelog v d o
        { env with revListCode := c₁, diffCode := c₂, revListErr := r } content =
      update_changelog v d o env content) ∧
    (pyStrip env.revListOut = [] →
      update_changelog v d o env content = changelogRewrite v d o content) :=
  ⟨fun _ _ _ => rfl, update_changelog_no_tag v d o env content⟩

/-- Witness for C10: a failing rev-list (exit code 128, noisy stderr, empty
stdout) is treated exactly like the absence of tags. -/
theorem C10_git_failure_detection_witness :
    update_changelog "1.0.0".data "2026-10-12".data "o".data
        { revListOut := [], revListErr := "fatal: not a git repository".data,
          revListCode := 128, diffOut := [], diffErr := [], diffCode := 0 }
        "## [Unreleased]".data =
      changelogRewrite "1.0.0".data "2026-10-12".data "o".data "## [Unreleased]".data :=
  (C10_git_failure_detection "1.0.0".data "2026-10-12".data "o".data
    "## [Unreleased]".data _).2 (by decide)

/-- C8: `bump_version` rewrites the version file, the hocfile and both
manifests before `update_changelog` runs its validations, so when the latter
aborts with any error those four files keep their new contents (and only the
changelog keeps its original one). -/
theorem C8_no_rollback_on_changelog_error (idx : Nat) (o d : List Char) (env : GitEnv)
    (fs : FS) (next e : List Char)
    (hnext : get_next_version idx (get_current_version fs) = Except.ok next)
    (herr : update_changelog next d o env fs.changelog = Except.error e) :
    bump_version idx o d env fs = Except.error (e,
      { version_file := next,
        hocfile := update_hocfile next (get_current_version fs) fs.hocfile,
        frontend_manifest := update_manifest next (get_current_version fs) fs.frontend_manifest,
        backend_manifest := update_manifest next (get_current_version fs) fs.backend_manifest,
        changelog := fs.changelog }) :=
  bump_version_of_changelog_error idx o d env fs next e hnext herr

/-- Witness for C8: a run whose changelog lacks the Unreleased header still
leaves all four version rewrites in place. -/
theorem C8_no_rollback_on_changelog_error_witness :
    bump_version 2 "own".data "2026-10-12".data
        { revListOut := [], revListErr := [], revListCode := 0,
          diffOut := [], diffErr := [], diffCode := 0 }
        { version_file := "1.2.3".data, hocfile := "version: 1.2.3\n".data,
          frontend_manifest := "version = \"1.2.3\"\n".data,
          backend_manifest := "version = \"1.2.3\"\n".data,
          changelog := "nothing".data } =
      Except.error (noUnreleasedMsg,
        { version_file := "1.2.4".data, hocfile := "version: 1.2.4\n".data,
          frontend_manifest := "version = \"1.2.4\"\n".data,
          backend_manifest := "version = \"1.2.4\"\n".data,
          changelog := "nothing".data }) :=
  (C8_no_rollback_on_changelog_error 2 "own".data "2026-10-12".data _ _
    "1.2.4".data noUnreleasedMsg (by decide) (by decide)).trans (by decide)

/-- C6: `update_hocfile` and `update_manifest` replace only the first
occurrence of their expected pattern, leave everything around it unchanged,
and are the identity (raising nothing) when the pattern is absent. -/
theorem C6_first_occurrence_only (next cur content : List Char) :
    (splitFirst ("version: ".data ++ cur) content = none →
      update_hocfile next cur content = content) ∧
    (∀ a b, splitFirst ("version: ".data ++ cur) content = some (a, b) →
      content = a ++ ("version: ".data ++ cur) ++ b ∧
      update_hocfile next cur content = a ++ ("version: ".data ++ next) ++ b) ∧
    (splitFirst ("version = \"".data ++ cur ++ ['"']) content = none →
      update_manifest next cur content = content) ∧
    (∀ a b, splitFirst ("version = \"".data ++ cur ++ ['"']) content = some (a, b) →
      content = a ++ ("version = \"".data ++ cur ++ ['"']) ++ b ∧
      update_manifest next cur content = a ++ ("version = \"".data ++ next ++ ['"']) ++ b) := by
  refine ⟨fun h => ?_, fun a b h => ⟨?_, ?_⟩, fun h => ?_, fun a b h => ⟨?_, ?_⟩⟩
  · exact replaceOne_of_splitFirst_none _ _ _ h
  · exact splitFirst_some_decomp _ (List.cons_ne_nil _ _) _ a b h
  · exact replaceOne_of_splitFirst_some _ _ _ a b h
  · exact replaceOne_of_splitFirst_none _ _ _ h
  · exact splitFirst_some_decomp _ (List.cons_ne_nil _ _) _ a b h
  · exact replaceOne_of_splitFirst_some _ _ _ a b h

/-- Witness for C6: one present-pattern and one absent-pattern run of each
updater. -/
theorem C6_first_occurrence_only_witness :
    update_hocfile "1.1.0".data "1.0.0".data "a\nversion: 1.0.0\nb".data =
      "a\nversion: 1.1.0\nb".data ∧
    update_hocfile "1.1.0".data "1.0.0".data "nope".data = "nope".data ∧
    update_manifest "1.1.0".data "1.0.0".data "x\nversion = \"1.0.0\"\ny".data =
      "x\nversion = \"1.1.0\"\ny".data ∧
    update_manifest "1.1.0".data "1.0.0".data "nope".data = "nope".data :=
  ⟨((C6_first_occurrence_only "1.1.0".data "1.0.0".data _).2.1 "a\n".data "\nb".data
      (by decide)).2.trans (by decide),
    (C6_first_occurrence_only "1.1.0".data "1.0.0".data _).1 (by decide),
    ((C6_first_occurrence_only "1.1.0".data "1.0.0".data _).2.2.2 "x\n".data "\ny".data
      (by decide)).2.trans (by decide),
    (C6_first_occurrence_only "1.1.0".data "1.0.0".data _).2.2.1 (by decide)⟩

/-- C7: every CLI run either exits 0 printing the new version as the only
stdout line, or exits 1 printing a single `error: <msg>` stderr line; and the
enumerated failure conditions (missing arguments, bad bump keyword, invalid
current version, git diff stderr, empty diff, changelog-section errors) each
produce the corresponding exit-1 outcome, while a clean run prints the new
version and exits 0. -/
theorem C7_cli_exit_contract (argv : List (List Char)) (d : List Char) (env : GitEnv)
    (fs : FS) :
    ((∃ m, mainEntry argv d env fs = errorResult m) ∨
      ∃ v, mainEntry argv d env fs =
        { exitCode := 0, stdoutLines := [v], stderrLines := [] }) ∧
    (∀ m, errorResult m =
      { exitCode := 1, stdoutLines := [], stderrLines := ["error: ".data ++ m] }) ∧
    (argv.length < 2 →
      mainEntry argv d env fs = errorResult "component argument missing".data) ∧
    (argv.length = 2 →
      mainEntry argv d env fs = errorResult "repository owner argument missing".data) ∧
    (∀ prog comp owner rest, argv = prog :: comp :: owner :: rest →
      comp ≠ "major".data → comp ≠ "minor".data → comp ≠ "patch".data →
      mainEntry argv d env fs = errorResult badComponentMsg) ∧
    (∀ prog comp owner rest idx, argv = prog :: comp :: owner :: rest →
      ((comp = "major".data ∧ idx = 0) ∨ (comp = "minor".data ∧ idx = 1) ∨
        (comp = "patch".data ∧ idx = 2)) →
      (∀ m, get_next_version idx (get_current_version fs) = Except.error m →
        mainEntry argv d env fs = errorResult m) ∧
      (∀ next, get_next_version idx (get_current_version fs) = Except.ok next →
        (0 < (pyStrip env.revListOut).length → 0 < (pyStrip env.diffErr).length →
          mainEntry argv d env fs = errorResult (pyStrip (pyStrip env.diffErr))) ∧
        (0 < (pyStrip env.revListOut).length → pyStrip env.diffErr = [] →
          pyStrip env.diffOut = [] →
          mainEntry argv d env fs = errorResult noChangesMsg) ∧
        (∀ e, update_changelog next d owner env fs.changelog = Except.error e →
          mainEntry argv d env fs = errorResult e) ∧
        (∀ newlog, update_changelog next d owner env fs.changelog = Except.ok newlog →
          mainEntry argv d env fs =
            { exitCode := 0, stdoutLines := [next], stderrLines := [] }))) := by
  have hkey : ∀ prog comp owner rest idx,
      ((comp = "major".data ∧ idx = 0) ∨ (comp = "minor".data ∧ idx = 1) ∨
        (comp = "patch".data ∧ idx = 2)) →
      (∃ m, mainEntry (prog :: comp :: owner :: rest) d env fs = errorResult m) ∨
        ∃ v, mainEntry (prog :: comp :: owner :: rest) d env fs =
          { exitCode := 0, stdoutLines := [v], stderrLines := [] } := by
    intro prog comp owner rest idx hcomp
    have hm := mainEntry_eq_of_component prog comp owner rest d env fs idx hcomp
    cases hb : bump_version idx owner d env fs with
    | error p =>
      obtain ⟨e, fsE⟩ := p
      rw [hm, hb]
      exact Or.inl ⟨e, rfl⟩
    | ok p =>
      obtain ⟨v, fsO⟩ := p
      rw [hm, hb]
      exact Or.inr ⟨v, rfl⟩
  refine ⟨?_, fun m => rfl, ?_, ?_, ?_, ?_⟩
  · cases argv with
    | nil => exact Or.inl ⟨_, by rw [mainEntry, if_pos (by decide)]⟩
    | cons prog argv1 =>
      cases argv1 with
      | nil => exact Or.inl ⟨_, by rw [mainEntry, if_pos (by simp)]⟩
      | cons comp argv2 =>
        cases argv2 with
        | nil =>
          exact Or.inl ⟨_, by rw [mainEntry, if_neg (by simp), if_pos (by simp)]⟩
        | cons owner rest =>
          by_cases h1 : comp = "major".data
          · exact hkey prog comp owner rest 0 (Or.inl ⟨h1, rfl⟩)
          · by_cases h2 : comp = "minor".data
            · exact hkey prog comp owner rest 1 (Or.inr (Or.inl ⟨h2, rfl⟩))
            · by_cases h3 : comp = "patch".data
              · exact hkey prog comp owner rest 2 (Or.inr (Or.inr ⟨h3, rfl⟩))
              · refine Or.inl ⟨badComponentMsg, ?_⟩
                rw [mainEntry, if_neg (by simp), if_neg (by simp)]
                simp only [List.getD_cons_succ, List.getD_cons_zero]
                rw [if_neg h1, if_neg h2, if_neg h3]
  · intro h
    rw [mainEntry, if_pos h]
  · intro h
    rw [mainEntry, if_neg (by omega), if_pos (by omega)]
  · rintro prog comp owner rest rfl h1 h2 h3
    rw [mainEntry, if_neg (by simp), if_neg (by simp)]
    simp only [List.getD_cons_succ, List.getD_cons_zero]
    rw [if_neg h1, if_neg h2, if_neg h3]
  · rintro prog comp owner rest idx rfl hcomp
    have hmain := mainEntry_eq_of_component prog comp owner rest d env fs idx hcomp
    refine ⟨fun m hm => ?_, fun next hnext => ⟨fun htag herr => ?_, fun htag herr hout => ?_,
      fun e he => ?_, fun newlog hok => ?_⟩⟩
    · rw [hmain, bump_version_of_invalid idx owner d env fs m hm]
    · rw [hmain, bump_version_of_changelog_error idx owner d env fs next _ hnext
        (update_changelog_git_error next d owner env fs.changelog htag herr)]
    · rw [hmain, bump_version_of_changelog_error idx owner d env fs next _ hnext
        (update_changelog_no_changes next d owner env fs.changelog htag herr hout)]
    · rw [hmain, bump_version_of_changelog_error idx owner d env fs next e hnext he]
    · rw [hmain, bump_version_of_changelog_ok idx owner d env fs next newlog hnext hok]

/-- Witness for C7: a clean `patch` run exits 0 printing `1.2.4`; a run with
no arguments exits 1 with the single missing-argument stderr line. -/
theorem C7_cli_exit_contract_witness :
    mainEntry ["bump_version.py".data, "patch".data, "me".data] "2026-10-12".data
        { revListOut := [], revListErr := [], revListCode := 0,
          diffOut := [], diffErr := [], diffCode := 0 }
        { version_file := "1.2.3".data, hocfile := [], frontend_manifest := [],
          backend_manifest := [], changelog := "## [Unreleased]\nx".data } =
      { exitCode := 0, stdoutLines := ["1.2.4".data], stderrLines := [] } ∧
    mainEntry ["bump_version.py".data] "2026-10-12".data
        { revListOut := [], revListErr := [], revListCode := 0,
          diffOut := [], diffErr := [], diffCode := 0 }
        { version_file := "1.2.3".data, hocfile := [], frontend_manifest := [],
          backend_manifest := [], changelog := "## [Unreleased]\nx".data } =
      { exitCode := 1, stdoutLines := [],
        stderrLines := ["error: component argument missing".data] } := by
  constructor
  · exact (((C7_cli_exit_contract _ _ _ _).2.2.2.2.2 "bump_version.py".data "patch".data
      "me".data [] 2 rfl (Or.inr (Or.inr ⟨rfl, rfl⟩))).2 "1.2.4".data (by decide)).2.2.2
      "## [Unreleased]\n\n## [1.2.4] - 2026-10-12\n\nImage tag: ghcr.io/me/signal-inspector-backend:1.2.4\nx".data
      (by decide)
  · exact ((C7_cli_exit_contract _ _ _ _).2.2.1 (by decide)).trans (by decide)

end SignalInspector
